import Mathlib

/-!
Shallow embedding of the multicall aggregation core of the gibme-npm web3
library: the ABI selector/signature codec (src/ABI.ts), the contract call
descriptor machinery and retry wrapper (src/Contract.ts), the multicall
aggregator (src/MulticallProvider.ts) and the ERC20 batched balance reader
(src/ERC20.ts).

Host-language strings are modelled as lists of characters (`JStr`), so that
JavaScript `substring`, `includes`, `toLowerCase` and concatenation become
`List.take`/`List.drop`, infix search, `Char.toLower` mapping and `++`.
External collaborators (the keccak256 hash, the ethers AbiCoder
encode/decode, and the on-chain RPC dispatch) are passed in as explicit
function parameters: the library treats them as opaque services.
-/

/-- JavaScript strings, modelled as lists of characters. -/
abbrev JStr := List Char

/-- JavaScript String.prototype.toLowerCase, character by character. -/
def jsToLower (s : JStr) : JStr := s.map Char.toLower

/-- Does the list begin with the given pattern?  Helper for substring search. -/
def startsWithSub : JStr → JStr → Bool
  | _, [] => true
  | [], _ :: _ => false
  | a :: as, b :: bs => a == b && startsWithSub as bs

/-- JavaScript String.prototype.includes: the pattern occurs contiguously. -/
def jsIncludes : JStr → JStr → Bool
  | [], pat => pat.isEmpty
  | a :: as, pat => startsWithSub (a :: as) pat || jsIncludes as pat

/--
ethers.utils.ParamType, restricted to the three cases the library
distinguishes in `ABI.getFunctionSignature`: a type whose `type` string is
"tuple" (carrying components), one whose `type` string is "tuple[]"
(carrying components), and any other type, carried by its `type` string.
-/
inductive ParamType where
  | prim (typeName : JStr)
  | tuple (components : List ParamType)
  | tupleArray (components : List ParamType)

/-- Runtime values flowing through call parameters and decoded results. -/
inductive Value where
  | vnat (n : Nat)
  | vstr (s : JStr)
  | vlist (vs : List Value)
  | vundef

mutual

/--
The contribution one input makes to the signature type list in
`ABI.getFunctionSignature` (src/ABI.ts lines 72-86): a tuple pushes the
recursively built signature with an empty name, a tuple array pushes that
suffixed by square brackets, anything else pushes its own type string.
-/
def typeContribution : ParamType → JStr
  | .prim typeName => typeName
  | .tuple components => getFunctionSignature [] components
  | .tupleArray components => getFunctionSignature [] components ++ ("[]".toList)
termination_by t => (sizeOf t, 0)

/-- The loop of `ABI.getFunctionSignature` that pushes one entry per input. -/
def typeContributions : List ParamType → List JStr
  | [] => []
  | input :: rest => typeContribution input :: typeContributions rest
termination_by l => (sizeOf l, 0)

/--
ABI.getFunctionSignature (src/ABI.ts lines 69-91): join the per-input type
strings with commas and wrap them in parentheses after the name.
-/
def getFunctionSignature (name : JStr) (inputs : List ParamType) : JStr :=
  name ++ ("(".toList) ++ List.intercalate (",".toList) (typeContributions inputs) ++ (")".toList)
termination_by (sizeOf inputs, 1)

end

/--
ABI.encode (src/ABI.ts lines 34-48).  `keccak` stands for
ethers.utils.keccak256 over the utf8 bytes of the signature (returning a
hex string with a 0x prefix) and `abiEncode` for
ethers.utils.AbiCoder.encode (also returning a 0x-prefixed hex string);
both are external to the repository.  substring(2, 10) is drop 2 take 8,
substring(2) is drop 2.
-/
def ABI.encode (keccak : JStr → JStr) (abiEncode : List ParamType → List Value → JStr)
    (name : JStr) (inputs : List ParamType) (params : List Value) : JStr :=
  let functionSignature := getFunctionSignature name inputs
  let functionHash := keccak functionSignature
  let functionData := (functionHash.drop 2).take 8
  let argumentString := abiEncode inputs params
  let argumentData := argumentString.drop 2
  ("0x".toList) ++ functionData ++ argumentData

/-! ## Spec-modelled signature grammar (for the refinement claim about
`getFunctionSignature`).  Stated in the spec's own vocabulary: a tuple type
contributes the parenthesized comma-joined signatures of its component
types, a tuple-array type contributes that parenthesized tuple signature
suffixed with square brackets, and any other type contributes its own type
name; the overall signature is the function name followed by the
parenthesized comma-joined contributions. -/

mutual

/-- Modelled from the spec: the signature of one TypeSpec. -/
def specTypeString : ParamType → JStr
  | .prim typeName => typeName
  | .tuple components =>
      ("(".toList) ++ List.intercalate (",".toList) (specTypeStrings components) ++ (")".toList)
  | .tupleArray components =>
      (("(".toList) ++ List.intercalate (",".toList) (specTypeStrings components) ++ (")".toList))
        ++ ("[]".toList)
termination_by t => (sizeOf t, 0)

/-- Modelled from the spec: the signatures of a list of TypeSpecs, in order. -/
def specTypeStrings : List ParamType → List JStr
  | [] => []
  | t :: ts => specTypeString t :: specTypeStrings ts
termination_by l => (sizeOf l, 0)

end

/-- Modelled from the spec: `name(type1,type2,...)`. -/
def specSignature (name : JStr) (inputs : List ParamType) : JStr :=
  name ++ ("(".toList) ++ List.intercalate (",".toList) (specTypeStrings inputs) ++ (")".toList)

lemma typeContributions_congr (cs : List ParamType)
    (h : ∀ t ∈ cs, typeContribution t = specTypeString t) :
    typeContributions cs = specTypeStrings cs := by
  induction cs with
  | nil => rw [typeContributions, specTypeStrings]
  | cons t ts ih =>
      rw [typeContributions, specTypeStrings, h t (List.mem_cons_self t ts),
        ih (fun u hu => h u (List.mem_cons_of_mem t hu))]

lemma typeContribution_eq_spec_aux :
    ∀ n : Nat, ∀ t : ParamType, sizeOf t ≤ n → typeContribution t = specTypeString t := by
  intro n
  induction n with
  | zero =>
      intro t h
      cases t <;> simp_all
  | succ n ih =>
      intro t h
      cases t with
      | prim typeName => rw [typeContribution, specTypeString]
      | tuple components =>
          rw [typeContribution, specTypeString, getFunctionSignature]
          rw [typeContributions_congr components
            (fun u hu => ih u (by
              have h1 := List.sizeOf_lt_of_mem hu
              have h2 : sizeOf (ParamType.tuple components) = 1 + sizeOf components := by
                simp
              omega))]
          simp
      | tupleArray components =>
          rw [typeContribution, specTypeString, getFunctionSignature]
          rw [typeContributions_congr components
            (fun u hu => ih u (by
              have h1 := List.sizeOf_lt_of_mem hu
              have h2 : sizeOf (ParamType.tupleArray components) = 1 + sizeOf components := by
                simp
              omega))]
          simp

lemma typeContribution_eq_spec (t : ParamType) : typeContribution t = specTypeString t :=
  typeContribution_eq_spec_aux (sizeOf t) t (Nat.le_refl _)

/--
C7: the function-signature string used for selector derivation is computed
by the pure recursive grammar of the spec: a tuple type contributes the
parenthesized comma-joined signatures of its component types, a
tuple-array type contributes that parenthesized tuple signature suffixed
with "[]", any other type contributes its own type name, and the overall
signature is the function name followed by the parenthesized comma-joined
contributions.
-/
theorem getFunctionSignature_eq_spec_grammar (name : JStr) (inputs : List ParamType) :
    getFunctionSignature name inputs = specSignature name inputs := by
  rw [getFunctionSignature, specSignature,
    typeContributions_congr inputs (fun t _ => typeContribution_eq_spec t)]

/--
C6: selector determinism.  For a fixed function name and fixed input type
list, and for any two parameter lists, the selector prefix of
`ABI.encode`'s output (the 0x marker plus the 8 hex characters of the
4-byte selector, i.e. the first 10 characters of the returned hex string)
is identical: it depends only on the name and the input types, never on
the parameter values.  `keccak` is the external 256-bit hash; the sole
assumption is that its hex output has at least 10 characters (the real
keccak256 returns 0x plus 64 hex characters).
-/
theorem encode_selector_deterministic (keccak : JStr → JStr)
    (abiEncode : List ParamType → List Value → JStr)
    (name : JStr) (inputs : List ParamType) (params1 params2 : List Value)
    (hk : 10 ≤ (keccak (getFunctionSignature name inputs)).length) :
    (ABI.encode keccak abiEncode name inputs params1).take 10
      = (ABI.encode keccak abiEncode name inputs params2).take 10 := by
  rw [ABI.encode, ABI.encode]
  have hfd : (((keccak (getFunctionSignature name inputs)).drop 2).take 8).length = 8 := by
    rw [List.length_take, List.length_drop]
    omega
  have hsel :
      ∀ rest : JStr,
        ((("0x".toList) ++ ((keccak (getFunctionSignature name inputs)).drop 2).take 8)
            ++ rest).take 10
          = ("0x".toList) ++ ((keccak (getFunctionSignature name inputs)).drop 2).take 8 := by
    intro rest
    refine List.take_left' ?_
    rw [List.length_append, hfd]
    rfl
  rw [hsel, hsel]

/--
Witness for C6 at a concrete instance: a 66-character dummy hash output,
one input type and two different parameter lists.
-/
theorem encode_selector_deterministic_witness :
    10 ≤ ((fun _ : JStr => ("0x0123456789".toList))
        (getFunctionSignature ("transfer".toList) [ParamType.prim ("address".toList)])).length
    ∧ (ABI.encode (fun _ => ("0x0123456789".toList)) (fun _ ps => ("0x".toList) ++ (ps.map fun _ => 'a'))
        ("transfer".toList) [ParamType.prim ("address".toList)] [Value.vnat 1]).take 10
      = (ABI.encode (fun _ => ("0x0123456789".toList)) (fun _ ps => ("0x".toList) ++ (ps.map fun _ => 'a'))
        ("transfer".toList) [ParamType.prim ("address".toList)] [Value.vnat 2, Value.vnat 3]).take 10 :=
  ⟨by decide,
    encode_selector_deterministic (fun _ => ("0x0123456789".toList))
      (fun _ ps => ("0x".toList) ++ (ps.map fun _ => 'a'))
      ("transfer".toList) [ParamType.prim ("address".toList)]
      [Value.vnat 1] [Value.vnat 2, Value.vnat 3] (by decide)⟩

/-! ## Call descriptors, the contract method table and the retry wrapper
(src/Contract.ts). -/

/--
ContractCall (src/Contract.ts lines 234-242): the immutable call
descriptor.  The nested `contract.address` field is flattened to
`contractAddress`.
-/
structure ContractCall where
  contractAddress : JStr
  name : JStr
  inputs : List ParamType
  outputs : List ParamType
  params : List Value

/-- Placeholder used to model JavaScript out-of-range array indexing. -/
def defaultContractCall : ContractCall :=
  { contractAddress := [], name := [], inputs := [], outputs := [], params := [] }

/--
One ethers interface fragment as seen by the Contract constructor
(src/Contract.ts lines 290-308): its fragment type string, its name, its
state mutability, its inputs and its optional outputs.
-/
structure FunctionFragment where
  fragType : JStr
  name : JStr
  stateMutability : JStr
  inputs : List ParamType
  outputs : Option (List ParamType)

/-- JavaScript Map.prototype.set: replace in place, or append a new entry. -/
def mapSet (m : List (JStr × ContractCall)) (k : JStr) (v : ContractCall) :
    List (JStr × ContractCall) :=
  match m with
  | [] => [(k, v)]
  | (k0, v0) :: rest => if k0 = k then (k, v) :: rest else (k0, v0) :: mapSet rest k v

/-- JavaScript Map.prototype.get. -/
def mapGet (m : List (JStr × ContractCall)) (k : JStr) : Option ContractCall :=
  match m with
  | [] => none
  | (k0, v0) :: rest => if k0 = k then some v0 else mapGet rest k

/-- Is a fragment a function declared pure or view?  (The two conditions of
the constructor loop at src/Contract.ts lines 290-297.) -/
def isReadOnlyFragment (f : FunctionFragment) : Bool :=
  decide (f.fragType = ("function".toList))
    && (decide (f.stateMutability = ("pure".toList))
      || decide (f.stateMutability = ("view".toList)))

/--
The body of the Contract constructor's fragment loop (src/Contract.ts
lines 290-308): skip fragments that are not functions; store every
function declared pure or view under its name, as a descriptor with the
contract address, the fragment's inputs, its outputs (or an empty list)
and empty params.
-/
def buildStep (address : JStr) (table : List (JStr × ContractCall))
    (fragment : FunctionFragment) : List (JStr × ContractCall) :=
  if fragment.fragType ≠ ("function".toList) then table
  else if fragment.stateMutability = ("pure".toList)
      ∨ fragment.stateMutability = ("view".toList) then
    mapSet table fragment.name
      { contractAddress := address
        name := fragment.name
        inputs := fragment.inputs
        outputs := fragment.outputs.getD []
        params := [] }
  else table

/--
The `_callMethods` table built once by the Contract constructor
(src/Contract.ts lines 290-308), by folding the loop body over the
interface fragments starting from the empty map.
-/
def buildCallMethods (address : JStr) (fragments : List FunctionFragment) :
    List (JStr × ContractCall) :=
  fragments.foldl (buildStep address) []

/--
Contract.callMethod (src/Contract.ts lines 393-409): look the name up in
the pre-indexed table; absent names raise the UnknownMethod error
("Contract method not callable"); present names yield a descriptor
carrying the stored address, name, inputs and outputs together with the
supplied params.  The operation is pure: no network request is involved.
-/
def callMethod (methods : List (JStr × ContractCall)) (name : JStr) (params : List Value) :
    Except JStr ContractCall :=
  match mapGet methods name with
  | none => Except.error ("Contract method not callable".toList)
  | some method =>
      Except.ok
        { contractAddress := method.contractAddress
          name := method.name
          inputs := method.inputs
          outputs := method.outputs
          params := params }

/--
The part of the Contract object state the chainable builder operates on
(src/Contract.ts lines 257-309): the constructor arguments from which the
method table is rebuilt, plus the accumulated `_callChain`.
-/
structure ContractState where
  addressOrName : JStr
  fragments : List FunctionFragment
  callChain : List ContractCall

/--
Contract.call (src/Contract.ts lines 357-364): construct a fresh Contract
from the same address and interface (its chain starts empty), copy the
current chain into it, and push the descriptor built by `callMethod`; the
receiver is left untouched and the new object is returned.
-/
def Contract.call (st : ContractState) (name : JStr) (params : List Value) :
    Except JStr ContractState :=
  match callMethod (buildCallMethods st.addressOrName st.fragments) name params with
  | Except.error e => Except.error e
  | Except.ok descriptor =>
      Except.ok
        { addressOrName := st.addressOrName
          fragments := st.fragments
          callChain := st.callChain ++ [descriptor] }

/--
The permanent-failure classification inside Contract.retryCall
(src/Contract.ts lines 339-343): the lower-cased error text contains
"revert exception" or "not a function".
-/
def isPermanentError (err : JStr) : Bool :=
  jsIncludes (jsToLower err) ("revert exception".toList)
    || jsIncludes (jsToLower err) ("not a function".toList)

/--
The three ways one invocation of the wrapped async function can end, as
seen by the try/catch in Contract.retryCall (src/Contract.ts lines
336-348).  The try body is `return func(...params)` with no await: a
returned promise that resolves delivers `ok`; a synchronous exception
thrown while evaluating `func(...params)` is caught by the catch block
(`syncThrow`); a returned promise that is rejected is adopted by the
caller's promise and bypasses the catch entirely (`asyncReject`).
-/
inductive CallOutcome where
  | ok (v : Value)
  | syncThrow (err : JStr)
  | asyncReject (err : JStr)

/--
Contract.retryCall (src/Contract.ts lines 331-349).  The wrapped function
is modelled as an oracle from the attempt number and the argument list to
a `CallOutcome`, so distinct attempts may observe distinct transient
conditions.  The result records the final outcome (none when the fuel
bound on observed attempts is exhausted while the source would still be
retrying), the argument list passed to the wrapped function on every
invocation in order, and the sleep durations performed between attempts.
A resolving call returns its value.  Because the try body
`return func(...params)` has no await, an asynchronously rejected call
bypasses the catch: its error propagates unmodified after a single
invocation, with no classification, no sleep and no retry.  Only a
synchronous throw reaches the catch, where the error text is lower-cased
and classified: a permanent error is re-raised unmodified with no further
invocation; otherwise the code sleeps 1 time unit and recurses as
`this.retryCall(func)` — note the recursion passes no params, so later
attempts receive the empty argument list.
-/
def retryCall (func : Nat → List Value → CallOutcome) :
    Nat → Nat → List Value → Option (Except JStr Value) × List (List Value) × List Nat
  | 0, _, _ => (none, [], [])
  | fuel + 1, attempt, params =>
    match func attempt params with
    | CallOutcome.ok v => (some (Except.ok v), [params], [])
    | CallOutcome.asyncReject err => (some (Except.error err), [params], [])
    | CallOutcome.syncThrow err =>
        if isPermanentError err then (some (Except.error err), [params], [])
        else
          match retryCall func fuel (attempt + 1) [] with
          | (outcome, invocations, delays) => (outcome, params :: invocations, 1 :: delays)

/-! ## The multicall aggregator (src/MulticallProvider.ts). -/

/-- One entry of the aggregate request (src/MulticallProvider.ts 122-128). -/
structure CallRequest where
  target : JStr
  callData : JStr

/-- The decoded reply of the on-chain aggregate entry point
(src/MulticallProvider.ts 136-139). -/
structure AggregateResponse where
  blockNumber : Nat
  returnData : List JStr

/--
The inner for-loop of MulticallProvider.aggregate
(src/MulticallProvider.ts lines 141-147), for one batch: for each index i
below the batch length, read `calls[i].outputs` — note the source indexes
the whole `calls` array with the batch-local counter i — decode
`response.returnData[i]` against those outputs, and flatten to the single
decoded value when the outputs list has exactly one entry.  `abiDecode`
stands for the external ethers.utils.AbiCoder.decode.
-/
def batchResults (abiDecode : List ParamType → JStr → List Value)
    (calls : List ContractCall) (response : AggregateResponse) (batchLen : Nat) : List Value :=
  (List.range batchLen).map fun i =>
    let outputs := (calls.getD i defaultContractCall).outputs
    let returnData := response.returnData.getD i []
    let params := abiDecode outputs returnData
    if outputs.length = 1 then params.getD 0 Value.vundef else Value.vlist params

/--
The while-loop of MulticallProvider.aggregate (src/MulticallProvider.ts
lines 132-148): slice off a batch of at most batchSize requests, dispatch
it through the retry-wrapped aggregate contract call (modelled by the
external `dispatch`, pure because the batch is a read-only query), decode
the batch with the inner loop and push onto the accumulated results.  The
fuel argument bounds the number of iterations we can observe; each
iteration removes at least one request whenever batchSize is at least 1,
so fuel equal to the request count always suffices, while a batchSize of 0
(on which the source loops forever) exhausts any fuel and yields none.
Alongside the decoded results the number of dispatched batches is
returned.
-/
def aggregateLoop (abiDecode : List ParamType → JStr → List Value)
    (dispatch : List CallRequest → AggregateResponse)
    (calls : List ContractCall) (batchSize : Nat) :
    Nat → List CallRequest → Option (List Value × Nat)
  | _, [] => some ([], 0)
  | 0, _ :: _ => none
  | fuel + 1, req :: rest0 =>
    let callRequests := req :: rest0
    let batch := callRequests.take batchSize
    let remaining := callRequests.drop batchSize
    let response := dispatch batch
    let results := batchResults abiDecode calls response batch.length
    match aggregateLoop abiDecode dispatch calls batchSize fuel remaining with
    | none => none
    | some (laterResults, batches) => some (results ++ laterResults, batches + 1)

/--
MulticallProvider.aggregate (src/MulticallProvider.ts lines 118-151): map
every call descriptor to a (target, callData) request via ABI.encode, then
run the batching loop.  Returns the ordered decoded results paired with
the number of batches dispatched, or none if the loop would not terminate
within one iteration per request (possible only for batchSize = 0).
-/
def MulticallProvider.aggregate (keccak : JStr → JStr)
    (abiEncode : List ParamType → List Value → JStr)
    (abiDecode : List ParamType → JStr → List Value)
    (dispatch : List CallRequest → AggregateResponse)
    (calls : List ContractCall) (batchSize : Nat) : Option (List Value × Nat) :=
  let callRequests := calls.map fun elem =>
    { target := elem.contractAddress
      callData := ABI.encode keccak abiEncode elem.name elem.inputs elem.params : CallRequest }
  aggregateLoop abiDecode dispatch calls batchSize callRequests.length callRequests

/--
Contract.exec (src/Contract.ts lines 371-385): an empty call chain raises
the EmptyCallChain error ("No call chain available"); otherwise the chain
is handed to MulticallProvider.aggregate with the default batch size 50.
-/
def Contract.exec (keccak : JStr → JStr)
    (abiEncode : List ParamType → List Value → JStr)
    (abiDecode : List ParamType → JStr → List Value)
    (dispatch : List CallRequest → AggregateResponse)
    (st : ContractState) : Except JStr (Option (List Value × Nat)) :=
  if st.callChain.length = 0 then Except.error ("No call chain available".toList)
  else Except.ok
    (MulticallProvider.aggregate keccak abiEncode abiDecode dispatch st.callChain 50)

/-! ## The ERC20 batched balance reader (src/ERC20.ts lines 71-107). -/

/-- One `{ owner, balance }` result pair of ERC20.balanceOfBatch. -/
structure OwnerBalance where
  owner : JStr
  balance : Value

/--
The call-construction loop of ERC20.balanceOfBatch (src/ERC20.ts lines
75-79): for each owner in order, build one `balanceOf` descriptor through
BaseContract.call, which is Contract.callMethod (src/BaseContract.ts line
72); the first failing lookup aborts the loop with its error.
-/
def buildBalanceCalls (methods : List (JStr × ContractCall)) :
    List JStr → Except JStr (List ContractCall)
  | [] => Except.ok []
  | owner :: rest =>
    match callMethod methods ("balanceOf".toList) [Value.vstr owner] with
    | Except.error e => Except.error e
    | Except.ok descriptor =>
        match buildBalanceCalls methods rest with
        | Except.error e => Except.error e
        | Except.ok descriptors => Except.ok (descriptor :: descriptors)

/--
The multicall branch of ERC20.balanceOfBatch (src/ERC20.ts lines 72-90),
taken when a multicall provider is configured: aggregate the per-owner
descriptors with the default batch size 50 and pair `owners[i]` with
`balances[i]`.  A missing `balanceOf` method propagates the callMethod
error; the inner Option is none only if the aggregate loop would not
terminate.
-/
def ERC20.balanceOfBatchMulticall (keccak : JStr → JStr)
    (abiEncode : List ParamType → List Value → JStr)
    (abiDecode : List ParamType → JStr → List Value)
    (dispatch : List CallRequest → AggregateResponse)
    (methods : List (JStr × ContractCall))
    (owners : List JStr) : Except JStr (Option (List OwnerBalance)) :=
  (buildBalanceCalls methods owners).map fun calls =>
    (MulticallProvider.aggregate keccak abiEncode abiDecode dispatch calls 50).map
      fun result =>
        (List.range owners.length).map fun i =>
          { owner := owners.getD i []
            balance := result.1.getD i Value.vundef }

/--
The fallback branch of ERC20.balanceOfBatch (src/ERC20.ts lines 91-106),
taken when no multicall provider is configured: for each owner issue an
individual `balanceOf` read through the retry wrapper and pair the owner
with the awaited balance; Promise.all preserves the original order.  The
result is none if any retry chain fails to settle within the fuel bound
or settles on an error.
-/
def ERC20.balanceOfBatchFallback (balanceOfFunc : Nat → List Value → CallOutcome)
    (fuel : Nat) : List JStr → Option (List OwnerBalance)
  | [] => some []
  | owner :: rest =>
    match (retryCall balanceOfFunc fuel 0 [Value.vstr owner]).1 with
    | some (Except.ok balance) =>
        match ERC20.balanceOfBatchFallback balanceOfFunc fuel rest with
        | some results => some ({ owner := owner, balance := balance } :: results)
        | none => none
    | _ => none

/--
C1 (failing input for the order-preservation claim): two calls with
different output type lists, batch size 1.  The second batch re-reads
`calls[0]` (the batch-local index) instead of `calls[1]`, so the second
result is decoded against the first call's output types: with a decoder
that reports the length of the output type list it is handed, both slots
come back as the length-1 answer, although the claim requires slot 1 to be
the (unflattened, since two outputTypes) decode against `calls[1]`,
which this decoder renders as a one-element sequence containing 2.
-/
theorem aggregate_second_batch_decodes_with_wrong_outputs :
    MulticallProvider.aggregate (fun _ => ("0x".toList)) (fun _ _ => ("0x".toList))
      (fun outs _ => [Value.vnat outs.length]) (fun batch => ⟨0, batch.map fun _ => []⟩)
      [{ contractAddress := ("0xa".toList), name := ("f".toList), inputs := [],
         outputs := [ParamType.prim ("uint256".toList)], params := [] },
       { contractAddress := ("0xa".toList), name := ("g".toList), inputs := [],
         outputs := [ParamType.prim ("bool".toList), ParamType.prim ("uint256".toList)],
         params := [] }] 1
      = some ([Value.vnat 1, Value.vnat 1], 2)
    ∧ Value.vlist ((fun (outs : List ParamType) (_ : JStr) => [Value.vnat outs.length])
        [ParamType.prim ("bool".toList), ParamType.prim ("uint256".toList)] [])
      = Value.vlist [Value.vnat 2]
    ∧ Value.vnat 1 ≠ Value.vlist [Value.vnat 2] :=
  ⟨rfl, rfl, fun h => Value.noConfusion h⟩

/--
C5 (failing input for the single-output-flattening claim): the first call
declares two outputTypes, the second exactly one, batch size 1.  Because
the second batch reads `calls[0].outputs` (batch-local index), the
single-output descriptor's slot is produced as a two-element sequence
instead of the bare decoded value the claim requires.
-/
theorem aggregate_flattening_uses_wrong_descriptor_across_batches :
    MulticallProvider.aggregate (fun _ => ("0x".toList)) (fun _ _ => ("0x".toList))
      (fun outs _ => outs.map fun _ => Value.vnat 7) (fun batch => ⟨0, batch.map fun _ => []⟩)
      [{ contractAddress := ("0xa".toList), name := ("f".toList), inputs := [],
         outputs := [ParamType.prim ("bool".toList), ParamType.prim ("uint256".toList)],
         params := [] },
       { contractAddress := ("0xa".toList), name := ("g".toList), inputs := [],
         outputs := [ParamType.prim ("uint256".toList)], params := [] }] 1
      = some ([Value.vlist [Value.vnat 7, Value.vnat 7],
               Value.vlist [Value.vnat 7, Value.vnat 7]], 2)
    ∧ ([ParamType.prim ("uint256".toList)] : List ParamType).length = 1
    ∧ Value.vlist [Value.vnat 7, Value.vnat 7] ≠ Value.vnat 7 :=
  ⟨rfl, rfl, fun h => Value.noConfusion h⟩

/--
C4 (failing input for the same-parameters-on-retry claim): a wrapped
function that throws synchronously with transient text on attempt 0 and
then returns its received argument list.  The retry chain's invocation trace is
[[vnat 5], []]: the second invocation received the empty argument list,
not the original parameters, because the source recurses as
`this.retryCall(func)` without forwarding params.
-/
theorem retryCall_drops_params_on_retry :
    retryCall (fun attempt ps =>
        if attempt = 0 then CallOutcome.syncThrow ("timeout".toList)
        else CallOutcome.ok (Value.vlist ps))
      2 0 [Value.vnat 5]
      = (some (Except.ok (Value.vlist [])), [[Value.vnat 5], []], [1])
    ∧ ([] : List Value) ≠ [Value.vnat 5] :=
  ⟨rfl, fun h => List.noConfusion h⟩

/--
C10: aggregating an empty sequence of call descriptors yields an empty
result sequence with zero batches dispatched (the while loop never runs,
so the aggregator contract is never invoked), for every batch size; in
contrast, the chainable builder's exec() on an empty call chain raises the
EmptyCallChain error ("No call chain available").
-/
theorem aggregate_empty_no_dispatch_exec_empty_fails (keccak : JStr → JStr)
    (abiEncode : List ParamType → List Value → JStr)
    (abiDecode : List ParamType → JStr → List Value)
    (dispatch : List CallRequest → AggregateResponse) (batchSize : Nat) :
    MulticallProvider.aggregate keccak abiEncode abiDecode dispatch [] batchSize
      = some ([], 0)
    ∧ ∀ (addressOrName : JStr) (fragments : List FunctionFragment),
        Contract.exec keccak abiEncode abiDecode dispatch
          { addressOrName := addressOrName, fragments := fragments, callChain := [] }
          = Except.error ("No call chain available".toList) :=
  ⟨rfl, fun _ _ => rfl⟩

/--
C3 (failing input for the permanent/transient classification claim): the
ordinary failure mode of a wrapped ethers read call is a rejected promise.
Because the try body at src/Contract.ts line 337 is
`return func(...params)` with no await, that rejection bypasses the catch:
a call rejecting asynchronously with the transient text "timeout" is
re-raised after exactly one invocation, with no delay and no second
invocation — although the text is not classified permanent — contradicting
the claim that any other-texted failure is retried after a delay of 1.
(The classification itself is only reachable from synchronous throws.)
-/
theorem retryCall_async_transient_not_retried :
    retryCall (fun _ _ => CallOutcome.asyncReject ("timeout".toList)) 2 0 [Value.vnat 5]
      = (some (Except.error ("timeout".toList)), [[Value.vnat 5]], [])
    ∧ isPermanentError ("timeout".toList) = false :=
  ⟨rfl, by decide⟩

lemma mapGet_mapSet_isSome (m : List (JStr × ContractCall)) (k n : JStr) (v : ContractCall) :
    (mapGet (mapSet m k v) n).isSome = true ↔ n = k ∨ (mapGet m n).isSome = true := by
  induction m with
  | nil =>
      simp only [mapSet, mapGet]
      by_cases h : k = n
      · rw [if_pos h]
        constructor
        · intro _; exact Or.inl h.symm
        · intro _; rfl
      · rw [if_neg h]
        constructor
        · intro hh; exact absurd hh (by simp)
        · rintro (hh | hh)
          · exact absurd hh.symm h
          · exact absurd hh (by simp)
  | cons kv rest ih =>
      obtain ⟨k0, v0⟩ := kv
      by_cases hk : k0 = k
      · subst hk
        simp only [mapSet, if_pos rfl, mapGet]
        by_cases hn : k0 = n
        · rw [if_pos hn, if_pos hn]
          constructor
          · intro _; exact Or.inl hn.symm
          · intro _; rfl
        · rw [if_neg hn, if_neg hn]
          constructor
          · intro hh; exact Or.inr hh
          · rintro (hh | hh)
            · exact absurd hh.symm hn
            · exact hh
      · simp only [mapSet, if_neg hk, mapGet]
        by_cases hn : k0 = n
        · rw [if_pos hn, if_pos hn]
          constructor
          · intro _; exact Or.inr rfl
          · intro _; rfl
        · rw [if_neg hn, if_neg hn]
          exact ih

lemma mapGet_buildStep_isSome (address name : JStr) (init : List (JStr × ContractCall))
    (f : FunctionFragment) :
    (mapGet (buildStep address init f) name).isSome = true
      ↔ ((mapGet init name).isSome = true
          ∨ (isReadOnlyFragment f = true ∧ f.name = name)) := by
  have hro : isReadOnlyFragment f = true
      ↔ (f.fragType = ("function".toList)
          ∧ (f.stateMutability = ("pure".toList) ∨ f.stateMutability = ("view".toList))) := by
    rw [isReadOnlyFragment]
    simp only [Bool.and_eq_true, Bool.or_eq_true, decide_eq_true_eq]
  rw [hro]
  by_cases hty : f.fragType = ("function".toList)
  · by_cases hmut : f.stateMutability = ("pure".toList)
        ∨ f.stateMutability = ("view".toList)
    · rw [buildStep, if_neg (fun hcon => hcon hty), if_pos hmut, mapGet_mapSet_isSome]
      constructor
      · rintro (h | h)
        · exact Or.inr ⟨⟨hty, hmut⟩, h.symm⟩
        · exact Or.inl h
      · rintro (h | ⟨_, h2⟩)
        · exact Or.inr h
        · exact Or.inl h2.symm
    · rw [buildStep, if_neg (fun hcon => hcon hty), if_neg hmut]
      constructor
      · exact Or.inl
      · rintro (h | ⟨⟨_, hm⟩, _⟩)
        · exact h
        · exact absurd hm hmut
  · rw [buildStep, if_pos hty]
    constructor
    · exact Or.inl
    · rintro (h | ⟨⟨ht, _⟩, _⟩)
      · exact h
      · exact absurd ht hty

lemma mapGet_buildStep_foldl (address name : JStr) (fragments : List FunctionFragment) :
    ∀ (init : List (JStr × ContractCall)),
      (mapGet (fragments.foldl (buildStep address) init) name).isSome = true
        ↔ ((mapGet init name).isSome = true
            ∨ ∃ f ∈ fragments, isReadOnlyFragment f = true ∧ f.name = name) := by
  induction fragments with
  | nil => intro init; simp
  | cons f fs ih =>
      intro init
      rw [List.foldl_cons, ih (buildStep address init f), mapGet_buildStep_isSome]
      constructor
      · rintro ((h | h) | h)
        · exact Or.inl h
        · exact Or.inr ⟨f, List.mem_cons_self f fs, h⟩
        · obtain ⟨g, hg, hp⟩ := h
          exact Or.inr ⟨g, List.mem_cons_of_mem f hg, hp⟩
      · rintro (h | ⟨g, hg, hp⟩)
        · exact Or.inl (Or.inl h)
        · rcases List.mem_cons.mp hg with rfl | hg2
          · exact Or.inl (Or.inr hp)
          · exact Or.inr ⟨g, hg2, hp⟩

/--
C8: the method table built once at Contract construction holds an entry
for a name exactly when some interface fragment is a function declared
pure or view with that name; `callMethod` on a name absent from the table
fails with the UnknownMethod error ("Contract method not callable") — it
is a pure lookup, so no network request is made — and on a present name
succeeds with a descriptor carrying the stored entry's input and output
TypeSpecs together with the supplied params.
-/
theorem callMethod_unknown_method_spec (address : JStr)
    (fragments : List FunctionFragment) (name : JStr) (params : List Value) :
    ((mapGet (buildCallMethods address fragments) name).isSome = true
      ↔ ∃ f ∈ fragments, isReadOnlyFragment f = true ∧ f.name = name)
    ∧ (mapGet (buildCallMethods address fragments) name = none →
        callMethod (buildCallMethods address fragments) name params
          = Except.error ("Contract method not callable".toList))
    ∧ (∀ m, mapGet (buildCallMethods address fragments) name = some m →
        callMethod (buildCallMethods address fragments) name params
          = Except.ok { contractAddress := m.contractAddress, name := m.name,
                        inputs := m.inputs, outputs := m.outputs, params := params }) := by
  refine ⟨?_, ?_, ?_⟩
  · rw [buildCallMethods, mapGet_buildStep_foldl]
    simp [mapGet]
  · intro h
    rw [callMethod, h]
  · intro m h
    rw [callMethod, h]

/--
Witness for C8: a one-fragment interface with a view function "f"; looking
up the absent name "g" fails with the UnknownMethod error, and looking up
"f" yields the descriptor with the stored types and the supplied params.
-/
theorem callMethod_unknown_method_spec_witness :
    callMethod (buildCallMethods ("0xa".toList)
        [{ fragType := ("function".toList), name := ("f".toList),
           stateMutability := ("view".toList), inputs := [],
           outputs := some [ParamType.prim ("uint256".toList)] }])
      ("g".toList) [Value.vnat 4]
      = Except.error ("Contract method not callable".toList)
    ∧ callMethod (buildCallMethods ("0xa".toList)
        [{ fragType := ("function".toList), name := ("f".toList),
           stateMutability := ("view".toList), inputs := [],
           outputs := some [ParamType.prim ("uint256".toList)] }])
      ("f".toList) [Value.vnat 4]
      = Except.ok { contractAddress := ("0xa".toList), name := ("f".toList), inputs := [],
                    outputs := [ParamType.prim ("uint256".toList)],
                    params := [Value.vnat 4] } :=
  ⟨(callMethod_unknown_method_spec ("0xa".toList)
      [{ fragType := ("function".toList), name := ("f".toList),
         stateMutability := ("view".toList), inputs := [],
         outputs := some [ParamType.prim ("uint256".toList)] }]
      ("g".toList) [Value.vnat 4]).2.1 rfl,
   (callMethod_unknown_method_spec ("0xa".toList)
      [{ fragType := ("function".toList), name := ("f".toList),
         stateMutability := ("view".toList), inputs := [],
         outputs := some [ParamType.prim ("uint256".toList)] }]
      ("f".toList) [Value.vnat 4]).2.2
      { contractAddress := ("0xa".toList), name := ("f".toList), inputs := [],
        outputs := [ParamType.prim ("uint256".toList)], params := [] } rfl⟩

/--
C9: the chainable builder is copy-on-append.  When `callMethod` succeeds,
`Contract.call` on a base builder with queued chain C returns a new
builder value whose chain is exactly C followed by the one new descriptor
(the base value itself is immutable and untouched); two builders forked
from the same base by independent call invocations each hold C plus only
their own appended descriptor.
-/
theorem builder_call_copy_on_append (st : ContractState) (n1 n2 : JStr)
    (p1 p2 : List Value) (d1 d2 : ContractCall)
    (h1 : callMethod (buildCallMethods st.addressOrName st.fragments) n1 p1 = Except.ok d1)
    (h2 : callMethod (buildCallMethods st.addressOrName st.fragments) n2 p2 = Except.ok d2) :
    Contract.call st n1 p1
      = Except.ok { addressOrName := st.addressOrName, fragments := st.fragments,
                    callChain := st.callChain ++ [d1] }
    ∧ Contract.call st n2 p2
      = Except.ok { addressOrName := st.addressOrName, fragments := st.fragments,
                    callChain := st.callChain ++ [d2] } := by
  constructor
  · rw [Contract.call, h1]
  · rw [Contract.call, h2]

/--
Witness for C9: a base builder over a two-view-function interface, forked
by queueing "f" on one branch and "g" on the other; each fork holds only
its own descriptor appended to the shared (empty) base chain.
-/
theorem builder_call_copy_on_append_witness :
    Contract.call
      { addressOrName := ("0xa".toList)
        fragments :=
          [{ fragType := ("function".toList), name := ("f".toList),
             stateMutability := ("view".toList), inputs := [],
             outputs := some [ParamType.prim ("uint256".toList)] },
           { fragType := ("function".toList), name := ("g".toList),
             stateMutability := ("pure".toList), inputs := [],
             outputs := some [ParamType.prim ("bool".toList)] }]
        callChain := [] }
      ("f".toList) [Value.vnat 1]
      = Except.ok
          { addressOrName := ("0xa".toList)
            fragments :=
              [{ fragType := ("function".toList), name := ("f".toList),
                 stateMutability := ("view".toList), inputs := [],
                 outputs := some [ParamType.prim ("uint256".toList)] },
               { fragType := ("function".toList), name := ("g".toList),
                 stateMutability := ("pure".toList), inputs := [],
                 outputs := some [ParamType.prim ("bool".toList)] }]
            callChain :=
              [] ++ [{ contractAddress := ("0xa".toList), name := ("f".toList), inputs := [],
                       outputs := [ParamType.prim ("uint256".toList)],
                       params := [Value.vnat 1] }] }
    ∧ Contract.call
      { addressOrName := ("0xa".toList)
        fragments :=
          [{ fragType := ("function".toList), name := ("f".toList),
             stateMutability := ("view".toList), inputs := [],
             outputs := some [ParamType.prim ("uint256".toList)] },
           { fragType := ("function".toList), name := ("g".toList),
             stateMutability := ("pure".toList), inputs := [],
             outputs := some [ParamType.prim ("bool".toList)] }]
        callChain := [] }
      ("g".toList) [Value.vnat 2]
      = Except.ok
          { addressOrName := ("0xa".toList)
            fragments :=
              [{ fragType := ("function".toList), name := ("f".toList),
                 stateMutability := ("view".toList), inputs := [],
                 outputs := some [ParamType.prim ("uint256".toList)] },
               { fragType := ("function".toList), name := ("g".toList),
                 stateMutability := ("pure".toList), inputs := [],
                 outputs := some [ParamType.prim ("bool".toList)] }]
            callChain :=
              [] ++ [{ contractAddress := ("0xa".toList), name := ("g".toList), inputs := [],
                       outputs := [ParamType.prim ("bool".toList)],
                       params := [Value.vnat 2] }] } :=
  builder_call_copy_on_append
    { addressOrName := ("0xa".toList)
      fragments :=
        [{ fragType := ("function".toList), name := ("f".toList),
           stateMutability := ("view".toList), inputs := [],
           outputs := some [ParamType.prim ("uint256".toList)] },
         { fragType := ("function".toList), name := ("g".toList),
           stateMutability := ("pure".toList), inputs := [],
           outputs := some [ParamType.prim ("bool".toList)] }]
      callChain := [] }
    ("f".toList) ("g".toList) [Value.vnat 1] [Value.vnat 2]
    { contractAddress := ("0xa".toList), name := ("f".toList), inputs := [],
      outputs := [ParamType.prim ("uint256".toList)], params := [Value.vnat 1] }
    { contractAddress := ("0xa".toList), name := ("g".toList), inputs := [],
      outputs := [ParamType.prim ("bool".toList)], params := [Value.vnat 2] }
    rfl rfl

lemma getD_mem_of_lt {α : Type} (l : List α) (i : Nat) (d : α) (h : i < l.length) :
    l.getD i d ∈ l := by
  rw [List.getD_eq_getElem l d h]
  exact List.getElem_mem h

lemma batchResults_aligned (abiDecode : List ParamType → JStr → List Value)
    (respond : JStr → JStr) (outs : List ParamType) (bn : Nat)
    (calls : List ContractCall) (batch : List CallRequest)
    (hlen : batch.length ≤ calls.length)
    (houts : ∀ c ∈ calls, c.outputs = outs)
    (hone : outs.length = 1) :
    batchResults abiDecode calls ⟨bn, batch.map fun r => respond r.callData⟩ batch.length
      = batch.map fun r => (abiDecode outs (respond r.callData)).getD 0 Value.vundef := by
  apply List.ext_getElem
  · simp [batchResults]
  · intro i h1 h2
    have hib : i < batch.length := by simpa using h2
    have hic : i < calls.length := Nat.lt_of_lt_of_le hib hlen
    have hout_i : (calls.getD i defaultContractCall).outputs = outs :=
      houts _ (getD_mem_of_lt calls i defaultContractCall hic)
    simp only [batchResults, List.getElem_map, List.getElem_range]
    rw [hout_i, if_pos hone]
    rw [List.getD_eq_getElem (batch.map fun r => respond r.callData) []
        (by simpa using hib), List.getElem_map]

lemma aggregateLoop_uniform (abiDecode : List ParamType → JStr → List Value)
    (respond : JStr → JStr) (dispatch : List CallRequest → AggregateResponse)
    (calls : List ContractCall) (outs : List ParamType) (batchSize : Nat)
    (hbs : 1 ≤ batchSize)
    (houts : ∀ c ∈ calls, c.outputs = outs)
    (hone : outs.length = 1)
    (hdisp : ∀ batch, dispatch batch = ⟨0, batch.map fun r => respond r.callData⟩) :
    ∀ (fuel : Nat) (requests : List CallRequest),
      requests.length ≤ fuel → requests.length ≤ calls.length →
      ∃ batches,
        aggregateLoop abiDecode dispatch calls batchSize fuel requests
          = some (requests.map fun r =>
              (abiDecode outs (respond r.callData)).getD 0 Value.vundef, batches) := by
  intro fuel
  induction fuel with
  | zero =>
      intro requests hfu _
      have : requests = [] := List.eq_nil_of_length_eq_zero (Nat.le_zero.mp hfu)
      subst this
      exact ⟨0, rfl⟩
  | succ fuel ih =>
      intro requests hfu hcl
      cases requests with
      | nil => exact ⟨0, rfl⟩
      | cons r rs =>
          have htake : ((r :: rs).take batchSize).length ≤ calls.length := by
            have h2 : ((r :: rs).take batchSize).length ≤ (r :: rs).length :=
              List.length_take_le' _ _
            omega
          have hdroplen : ((r :: rs).drop batchSize).length ≤ fuel := by
            rw [List.length_drop]
            simp only [List.length_cons] at hfu ⊢
            omega
          have hdropcl : ((r :: rs).drop batchSize).length ≤ calls.length := by
            rw [List.length_drop]
            simp only [List.length_cons] at hcl ⊢
            omega
          obtain ⟨batches, hrec⟩ := ih ((r :: rs).drop batchSize) hdroplen hdropcl
          refine ⟨batches + 1, ?_⟩
          rw [aggregateLoop]
          rw [hdisp, batchResults_aligned abiDecode respond outs 0 calls _ htake houts hone,
            hrec]
          show some
              (((r :: rs).take batchSize).map
                  (fun r => (abiDecode outs (respond r.callData)).getD 0 Value.vundef)
                ++ ((r :: rs).drop batchSize).map
                  (fun r => (abiDecode outs (respond r.callData)).getD 0 Value.vundef),
               batches + 1)
            = some ((r :: rs).map
                  (fun r => (abiDecode outs (respond r.callData)).getD 0 Value.vundef),
               batches + 1)
          rw [← List.map_append, List.take_append_drop]

/-- The descriptor `callMethod` produces for one owner from the stored
`balanceOf` table entry. -/
def balanceDescriptor (m : ContractCall) (owner : JStr) : ContractCall :=
  { contractAddress := m.contractAddress, name := m.name, inputs := m.inputs,
    outputs := m.outputs, params := [Value.vstr owner] }

/-- The (target, callData) request `aggregate` builds from one descriptor. -/
def toCallRequest (keccak : JStr → JStr) (abiEncode : List ParamType → List Value → JStr)
    (elem : ContractCall) : CallRequest :=
  { target := elem.contractAddress
    callData := ABI.encode keccak abiEncode elem.name elem.inputs elem.params }

lemma buildBalanceCalls_ok (methods : List (JStr × ContractCall)) (m : ContractCall)
    (hm : mapGet methods ("balanceOf".toList) = some m) :
    ∀ owners : List JStr,
      buildBalanceCalls methods owners = Except.ok (owners.map (balanceDescriptor m)) := by
  intro owners
  induction owners with
  | nil => rfl
  | cons o os ih =>
      have hcall : callMethod methods ("balanceOf".toList) [Value.vstr o]
          = Except.ok (balanceDescriptor m o) := by
        rw [callMethod, hm]
        rfl
      rw [buildBalanceCalls, hcall, ih]
      rfl

lemma range_map_pair (owners : List JStr) (g : JStr → Value) :
    ((List.range owners.length).map fun i =>
        OwnerBalance.mk (owners.getD i []) ((owners.map g).getD i Value.vundef))
      = owners.map fun o => OwnerBalance.mk o (g o) := by
  apply List.ext_getElem
  · simp
  · intro i h1 h2
    have hio : i < owners.length := by simpa using h2
    simp only [List.getElem_map, List.getElem_range]
    rw [List.getD_eq_getElem owners [] hio,
      List.getD_eq_getElem (owners.map g) Value.vundef (by simpa using hio),
      List.getElem_map]

lemma fallback_all_ok (balanceOfFunc : Nat → List Value → CallOutcome)
    (bal : JStr → Value)
    (hfunc : ∀ o, balanceOfFunc 0 [Value.vstr o] = CallOutcome.ok (bal o)) :
    ∀ owners : List JStr,
      ERC20.balanceOfBatchFallback balanceOfFunc 1 owners
        = some (owners.map fun o => OwnerBalance.mk o (bal o)) := by
  intro owners
  induction owners with
  | nil => rfl
  | cons o os ih =>
      have hretry : retryCall balanceOfFunc 1 0 [Value.vstr o]
          = (some (Except.ok (bal o)), [[Value.vstr o]], []) := by
        rw [show (1 : Nat) = 0 + 1 from rfl, retryCall, hfunc o]
      rw [ERC20.balanceOfBatchFallback, hretry, ih]
      rfl

/--
C2: fallback equivalence for ERC20.balanceOfBatch.  For a fixed owner list
and a fixed per-owner balance assignment `bal` — presented to the multicall
path as the chain's reply decoding to `[bal owner]` for each owner's
encoded balanceOf request, and to the fallback path as the contract method
resolving to `bal owner` — the batched path (multicall provider
configured) and the concurrent individual path (none configured) return
the identical ordered list of { owner, balance } pairs.  The hypotheses
say: the table stores a balanceOf entry with a single output type, the
dispatcher answers a batch entry-wise from the per-request reply function,
and decoding a reply yields exactly the owner's balance.
-/
theorem balanceOfBatch_fallback_equivalence
    (keccak : JStr → JStr) (abiEncode : List ParamType → List Value → JStr)
    (abiDecode : List ParamType → JStr → List Value)
    (respond : JStr → JStr) (dispatch : List CallRequest → AggregateResponse)
    (methods : List (JStr × ContractCall)) (m : ContractCall)
    (bal : JStr → Value) (balanceOfFunc : Nat → List Value → CallOutcome)
    (owners : List JStr)
    (hm : mapGet methods ("balanceOf".toList) = some m)
    (hone : m.outputs.length = 1)
    (hdisp : ∀ batch, dispatch batch = ⟨0, batch.map fun r => respond r.callData⟩)
    (hdec : ∀ owner : JStr,
      abiDecode m.outputs
          (respond (ABI.encode keccak abiEncode m.name m.inputs [Value.vstr owner]))
        = [bal owner])
    (hfunc : ∀ o, balanceOfFunc 0 [Value.vstr o] = CallOutcome.ok (bal o)) :
    ERC20.balanceOfBatchMulticall keccak abiEncode abiDecode dispatch methods owners
      = Except.ok (some (owners.map fun o => OwnerBalance.mk o (bal o)))
    ∧ ERC20.balanceOfBatchFallback balanceOfFunc 1 owners
      = some (owners.map fun o => OwnerBalance.mk o (bal o)) := by
  refine ⟨?_, fallback_all_ok balanceOfFunc bal hfunc owners⟩
  have h1 : ∀ c ∈ owners.map (balanceDescriptor m), c.outputs = m.outputs := by
    intro c hc
    rcases List.mem_map.mp hc with ⟨o, _, rfl⟩
    rfl
  obtain ⟨nb, hloop⟩ := aggregateLoop_uniform abiDecode respond dispatch
    (owners.map (balanceDescriptor m)) m.outputs 50 (by omega) h1 hone hdisp
    (((owners.map (balanceDescriptor m)).map (toCallRequest keccak abiEncode)).length)
    ((owners.map (balanceDescriptor m)).map (toCallRequest keccak abiEncode))
    (Nat.le_refl _) (by simp)
  have hmap : ((owners.map (balanceDescriptor m)).map (toCallRequest keccak abiEncode)).map
      (fun r => (abiDecode m.outputs (respond r.callData)).getD 0 Value.vundef)
      = owners.map bal := by
    rw [List.map_map, List.map_map]
    apply List.map_congr_left
    intro o _
    show (abiDecode m.outputs (respond (ABI.encode keccak abiEncode m.name m.inputs
        [Value.vstr o]))).getD 0 Value.vundef = bal o
    rw [hdec o]
    rfl
  have haggregate : MulticallProvider.aggregate keccak abiEncode abiDecode dispatch
      (owners.map (balanceDescriptor m)) 50 = some (owners.map bal, nb) := by
    show aggregateLoop abiDecode dispatch (owners.map (balanceDescriptor m)) 50
        (((owners.map (balanceDescriptor m)).map (toCallRequest keccak abiEncode)).length)
        ((owners.map (balanceDescriptor m)).map (toCallRequest keccak abiEncode))
      = some (owners.map bal, nb)
    rw [hloop, hmap]
  rw [ERC20.balanceOfBatchMulticall, buildBalanceCalls_ok methods m hm owners]
  show Except.ok ((MulticallProvider.aggregate keccak abiEncode abiDecode dispatch
      (owners.map (balanceDescriptor m)) 50).map fun result =>
        (List.range owners.length).map fun i =>
          { owner := owners.getD i [], balance := result.1.getD i Value.vundef })
    = Except.ok (some (owners.map fun o => OwnerBalance.mk o (bal o)))
  rw [haggregate]
  show Except.ok (some ((List.range owners.length).map fun i =>
      OwnerBalance.mk (owners.getD i []) ((owners.map bal).getD i Value.vundef)))
    = Except.ok (some (owners.map fun o => OwnerBalance.mk o (bal o)))
  rw [range_map_pair]

/--
Witness for C2: two owners with constant balance 3; both the batched path
and the fallback path return the same ordered pairs.
-/
theorem balanceOfBatch_fallback_equivalence_witness :
    ERC20.balanceOfBatchMulticall (fun _ => ("0x".toList)) (fun _ _ => ("0x".toList))
        (fun _ _ => [Value.vnat 3]) (fun batch => ⟨0, batch.map fun _ => []⟩)
        [(("balanceOf".toList),
          { contractAddress := ("0xa".toList), name := ("balanceOf".toList),
            inputs := [ParamType.prim ("address".toList)],
            outputs := [ParamType.prim ("uint256".toList)], params := [] })]
        [("0x1".toList), ("0x2".toList)]
      = Except.ok (some ([("0x1".toList), ("0x2".toList)].map
          fun o => OwnerBalance.mk o (Value.vnat 3)))
    ∧ ERC20.balanceOfBatchFallback (fun _ _ => CallOutcome.ok (Value.vnat 3)) 1
        [("0x1".toList), ("0x2".toList)]
      = some ([("0x1".toList), ("0x2".toList)].map
          fun o => OwnerBalance.mk o (Value.vnat 3)) :=
  balanceOfBatch_fallback_equivalence
    (fun _ => ("0x".toList)) (fun _ _ => ("0x".toList)) (fun _ _ => [Value.vnat 3])
    (fun _ => []) (fun batch => ⟨0, batch.map fun _ => []⟩)
    [(("balanceOf".toList),
      { contractAddress := ("0xa".toList), name := ("balanceOf".toList),
        inputs := [ParamType.prim ("address".toList)],
        outputs := [ParamType.prim ("uint256".toList)], params := [] })]
    { contractAddress := ("0xa".toList), name := ("balanceOf".toList),
      inputs := [ParamType.prim ("address".toList)],
      outputs := [ParamType.prim ("uint256".toList)], params := [] }
    (fun _ => Value.vnat 3) (fun _ _ => CallOutcome.ok (Value.vnat 3))
    [("0x1".toList), ("0x2".toList)]
    rfl rfl (fun _ => rfl) (fun _ => rfl) (fun _ => rfl)
